import Mathlib

/-!
Shallow embedding of the vertical image stitcher (`stitchImages` and its
helpers `loadImage` / `readFileAsDataURL`).

Modelling choices, each tied to a line of the source:

* Image dimensions are natural numbers; the layout arithmetic
  (`scaleFactor`, `scaledHeight`, `totalHeight`) is done in `ℚ`, mirroring
  the exact JS number arithmetic of the source (all claims use values that
  are exact in binary floating point as well).
* `loadImage(file)` synchronously calls `URL.createObjectURL(file)` and then
  resolves with the image (carrying its `src` handle) or rejects.  We model
  the browser decode outcome as a per-image field `decoded : Option (Nat × Nat)`
  (natural width × height), and the object-URL handle as a numeric id: the
  `i`-th `loadImage` call allocates handle `i`.  All handles are allocated
  even when some decode fails, because `uploadedImages.map(u => loadImage(u.file))`
  starts every load before `Promise.all` awaits.
* `readFileAsDataURL(uploadedImages[0].file)` is modelled by a per-image
  field `readResult : Option Bytes` (`none` = the reader fired `onerror`,
  caught by the outer `try`).
* `window.piexif` is an optional abstract codec with `load` / `dump` /
  `insert`, each of which may throw (`Except`).  `piexif.load` returns
  either a dictionary object or a non-object value (the source comments note
  a string `"null"` sentinel); the source guards with
  `typeof exifObj === 'object'`.
* `canvas.width`/`canvas.height` assignment goes through the Web IDL
  `unsigned long` conversion: truncation toward zero modulo 2^32
  (`idlUint32`); `Math.round` is round-half-up (`jsRound`).
* `canvas.toDataURL("image/jpeg", 1.0)` is an abstract function of the
  canvas dimensions and the sequence of draw operations performed on it
  (`Env.encode`); the white background fill is constant and elided.
* The returned record keeps the fields the claims talk about: the final
  data-url bytes, `width = targetWidth`, `height = Math.round(totalHeight)`.
  The trailing `fetch`/`blob` wrapping is modelled as the identity on bytes.
* A run also reports an event trace (canvas creation, fill, draws, encode,
  warnings) and the lists of allocated and released per-image handles, so
  that claims about "no canvas is created" or "handles are released" are
  statable.
-/

set_option autoImplicit false

namespace Stitch

/-- Byte buffers (file contents, data URLs) as lists of naturals. -/
abbrev Bytes := List Nat

/-- EXIF dictionary as returned by `piexif.load`: a flat list of
(tag id, value) pairs across the IFDs.  Empty list = "a segment exists but
contains no tags". -/
structure ExifDict where
  tags : List (Nat × Nat)
deriving DecidableEq, Repr

/-- Result value of `piexif.load`: either a dictionary object, or a
non-object JS value (the source's comment mentions a string "null"
sentinel), distinguished by the source's `typeof exifObj === 'object'`. -/
inductive JsVal where
  | obj (d : ExifDict)
  | nonObj (s : String)
deriving DecidableEq

/-- The global `window.piexif` codec.  Each operation may throw. -/
structure Piexif where
  load : Bytes → Except String JsVal
  dump : ExifDict → Except String Bytes
  insert : Bytes → Bytes → Except String Bytes

/-- One element of the `uploadedImages` argument, together with the
behaviour of the browser on it: `readResult` is the outcome of
`readFileAsDataURL(file)`, `decoded` the outcome of `loadImage(file)`
(natural width × natural height), `pixels` an abstract id for the raster
content that `drawImage` consumes. -/
structure UploadedImage where
  readResult : Option Bytes
  decoded : Option (Nat × Nat)
  pixels : Nat
deriving DecidableEq

/-- A successfully loaded `HTMLImageElement`: natural dimensions, raster
content, and the object-URL handle stored in its `src`. -/
structure Loaded where
  naturalWidth : Nat
  naturalHeight : Nat
  pixels : Nat
  src : Nat
deriving DecidableEq

/-- One `ctx.drawImage(img, 0, currentY, targetWidth, scaledHeight)` call. -/
structure Draw where
  pixels : Nat
  x : ℚ
  y : ℚ
  w : ℚ
  h : ℚ
deriving DecidableEq

/-- Observable events of one run. -/
inductive Event where
  | canvasCreated (w h : Nat)
  | filled (w h : Nat)
  | drewEv (d : Draw)
  | encodedEv
  | warnNoPiexif
  | warnExif
  | errRead
  | logExifOk
deriving DecidableEq

/-- Errors thrown out of `stitchImages`. -/
inductive Err where
  | emptyInput
  | decodeError
  | surfaceError
deriving DecidableEq

/-- The returned record: final data-url bytes (also wrapped into the blob),
`width := targetWidth` and `height := Math.round(totalHeight)`. -/
structure StitchResult where
  bytes : Bytes
  width : Nat
  height : Int
deriving DecidableEq

/-- Everything one invocation of `stitchImages` produces or touches. -/
structure RunResult where
  result : Except Err StitchResult
  events : List Event
  allocated : List Nat
  released : List Nat

/-- The browser environment a run executes in: whether
`canvas.getContext('2d')` succeeds, the encoder behind
`canvas.toDataURL("image/jpeg", 1.0)` (a function of the canvas dimensions
and the draw operations), and the optional global `window.piexif`. -/
structure Env where
  ctxOk : Bool
  encode : Nat → Nat → List Draw → Bytes
  piexif : Option Piexif

/-- Web IDL `unsigned long` conversion applied when a JS number is assigned
to `canvas.width` / `canvas.height`: truncation toward zero, modulo 2^32
(our arguments are always nonnegative, where truncation is `Int.floor`). -/
def idlUint32 (x : ℚ) : Nat :=
  Int.toNat (Int.floor x) % 2 ^ 32

/-- JS `Math.round`: round half toward positive infinity, i.e. `⌊x + 1/2⌋`,
which is Mathlib's `round` on `ℚ`. -/
def jsRound (x : ℚ) : Int :=
  round x

/-- `scaleFactor = targetWidth / img.naturalWidth` (exact rational). -/
def scaleFactor (targetWidth naturalWidth : Nat) : ℚ :=
  (targetWidth : ℚ) / (naturalWidth : ℚ)

/-- `scaledHeight = img.naturalHeight * scaleFactor`. -/
def scaledHeight (targetWidth : Nat) (img : Loaded) : ℚ :=
  (img.naturalHeight : ℚ) * scaleFactor targetWidth img.naturalWidth

/-- `totalHeight` accumulated over the `loadedImages.map(...)` pass: the
unrounded sum of the scaled heights. -/
def totalHeight (targetWidth : Nat) (loaded : List Loaded) : ℚ :=
  (loaded.map (scaledHeight targetWidth)).sum

/-- The `loadImage` fan-out over the tail of the input, numbering object-URL
handles from `i`: `some` of the loaded images iff every decode succeeded
(`Promise.all` semantics). -/
def loadAll : Nat → List UploadedImage → Option (List Loaded)
  | _, [] => some []
  | i, u :: us =>
    match u.decoded, loadAll (i + 1) us with
    | some (w, h), some ls => some (⟨w, h, u.pixels, i⟩ :: ls)
    | _, _ => none

/-- The draw loop: `let currentY = 0; imageDrawData.forEach(({img, scaledHeight}) =>
{ ctx.drawImage(img, 0, currentY, targetWidth, scaledHeight); currentY += scaledHeight })`. -/
def computeDraws (targetWidth : Nat) : ℚ → List Loaded → List Draw
  | _, [] => []
  | y, img :: rest =>
    ⟨img.pixels, 0, y, (targetWidth : ℚ), scaledHeight targetWidth img⟩ ::
      computeDraws targetWidth (y + scaledHeight targetWidth img) rest

/-- The EXIF transplant step (source step 6): outer `try` around
`readFileAsDataURL` and the `window.piexif` check, inner `try` around
`piexif.load` / `dump` / `insert`, guarded by `typeof exifObj === 'object'`.
Returns the final data-url bytes and the warnings/logs emitted.  It is a
total function: every failure is caught inside. -/
def exifStep (pe : Option Piexif) (firstRead : Option Bytes) (stitched : Bytes) :
    Bytes × List Event :=
  match firstRead with
  | none => (stitched, [.errRead])
  | some dataUrl =>
    match pe with
    | none => (stitched, [.warnNoPiexif])
    | some p =>
      match p.load dataUrl with
      | .error _ => (stitched, [.warnExif])
      | .ok (.nonObj _) => (stitched, [])
      | .ok (.obj d) =>
        match p.dump d with
        | .error _ => (stitched, [.warnExif])
        | .ok exifBytes =>
          match p.insert exifBytes stitched with
          | .error _ => (stitched, [.warnExif])
          | .ok out => (out, [.logExifOk])

/-- The encoded composite before the EXIF step:
`canvas.toDataURL("image/jpeg", 1.0)` on the canvas of the computed plan. -/
def stitchedBytes (env : Env) (l0 : Loaded) (ls : List Loaded) : Bytes :=
  env.encode l0.naturalWidth (idlUint32 (totalHeight l0.naturalWidth (l0 :: ls)))
    (computeDraws l0.naturalWidth 0 (l0 :: ls))

/-- The main pipeline, `stitchImages(uploadedImages)`:
empty-input check, `Promise.all` load, layout pass, canvas creation
(`canvas.width = targetWidth; canvas.height = totalHeight`), context check,
white fill, draw loop, `toDataURL`, EXIF transplant, blob wrapping, and the
final `loadedImages.forEach(img => URL.revokeObjectURL(img.src))` cleanup
(which runs only on the successful path — there is no `finally`). -/
def stitchImages (env : Env) (ups : List UploadedImage) : RunResult :=
  match ups with
  | [] => { result := .error .emptyInput, events := [], allocated := [], released := [] }
  | u0 :: us =>
    let handles := List.range (u0 :: us).length
    match u0.decoded, loadAll 1 us with
    | some (w0, h0), some ls =>
      let l0 : Loaded := ⟨w0, h0, u0.pixels, 0⟩
      let loaded := l0 :: ls
      let tw := w0
      let th := totalHeight tw loaded
      let ch := idlUint32 th
      if env.ctxOk then
        let draws := computeDraws tw 0 loaded
        let stitched := env.encode tw ch draws
        let fin := exifStep env.piexif u0.readResult stitched
        { result := .ok { bytes := fin.1, width := tw, height := jsRound th }
          events := [.canvasCreated tw ch, .filled tw ch] ++ draws.map .drewEv ++
            [.encodedEv] ++ fin.2
          allocated := handles
          released := loaded.map (·.src) }
      else
        { result := .error .surfaceError
          events := [.canvasCreated tw ch]
          allocated := handles
          released := [] }
    | _, _ =>
      { result := .error .decodeError
        events := []
        allocated := handles
        released := [] }

/-! ### Concrete environments and inputs used to instantiate the theorems -/

/-- Encoder that ignores its input (any fixed byte string works for claims
that do not inspect pixel data). -/
def encNil : Nat → Nat → List Draw → Bytes := fun _ _ _ => []

/-- Encoder returning a fixed recognisable byte string. -/
def encABC : Nat → Nat → List Draw → Bytes := fun _ _ _ => [1, 2, 3]

/-- Environment with a working context and no `window.piexif`. -/
def envPlain : Env := { ctxOk := true, encode := encNil, piexif := none }

/-- EXIF dictionary holding one tag: id 271 (camera make), value code 67
(for "Canon"). -/
def dCanon : ExifDict := ⟨[(271, 67)]⟩

/-- A well-behaved codec: `[99]` is the first file's data URL carrying
`dCanon`; a dumped segment is the byte string `[271, 67]`, `insert`
prepends it, and any stream starting with `271 :: 67` parses back to
`dCanon`. -/
def pCanon : Piexif :=
  { load := fun b =>
      match b with
      | 271 :: 67 :: _ => .ok (.obj dCanon)
      | [99] => .ok (.obj dCanon)
      | _ => .ok (.nonObj "null")
    dump := fun _ => .ok [271, 67]
    insert := fun eb s => .ok (eb ++ s) }

/-- Codec whose `load` always reports an empty-but-present dictionary, with
`dump` producing the two-byte segment `[9, 9]` and `insert` prepending it. -/
def pEmptyDict : Piexif :=
  { load := fun _ => .ok (.obj ⟨[]⟩)
    dump := fun _ => .ok [9, 9]
    insert := fun eb s => .ok (eb ++ s) }

/-- Codec whose `load` always throws. -/
def pThrows : Piexif :=
  { load := fun _ => .error "bad segment"
    dump := fun _ => .ok []
    insert := fun _ s => .ok s }

/-- An uploaded image that reads and decodes fine (10 × 20, raster id 5,
file/data URL `[99]`). -/
def upGood : UploadedImage := ⟨some [99], some (10, 20), 5⟩

/-- An uploaded image whose decode fails (`img.onerror`). -/
def upBad : UploadedImage := ⟨some [], none, 7⟩

/-- A 100 × 50 image (the spec's worked example, first slot). -/
def up100 : UploadedImage := ⟨some [], some (100, 50), 0⟩

/-- A 200 × 50 image (the spec's worked example, second slot). -/
def up200 : UploadedImage := ⟨some [], some (200, 50), 1⟩

/-- A 200 × 51 image (makes the total scaled height fractional: 50 + 25.5). -/
def up200f : UploadedImage := ⟨some [], some (200, 51), 1⟩

/-- Environment whose codec throws on `load`. -/
def envThrows : Env := { ctxOk := true, encode := encNil, piexif := some pThrows }

/-- Environment where `canvas.getContext('2d')` returns null. -/
def envNoCtx : Env := { ctxOk := false, encode := encNil, piexif := none }

/-- Environment with the well-behaved `pCanon` codec. -/
def envCanon : Env := { ctxOk := true, encode := encNil, piexif := some pCanon }

/-- Environment with the empty-dictionary codec and a recognisable encoder. -/
def envEmptyDict : Env := { ctxOk := true, encode := encABC, piexif := some pEmptyDict }

/-! ### General lemmas about the embedding -/

theorem loadAll_length {us : List UploadedImage} {i : Nat} {ls : List Loaded}
    (h : loadAll i us = some ls) : ls.length = us.length := by
  induction us generalizing i ls with
  | nil => simp [loadAll] at h; simp [← h]
  | cons u us ih =>
    simp only [loadAll] at h
    cases hd : u.decoded with
    | none => rw [hd] at h; simp at h
    | some wh =>
      cases hrest : loadAll (i + 1) us with
      | none => rw [hd, hrest] at h; simp at h
      | some ls' =>
        rw [hd, hrest] at h
        cases wh with
        | mk w hgt =>
          simp at h
          simp [← h, List.length_cons, ih hrest]

theorem loadAll_map_src {us : List UploadedImage} {i : Nat} {ls : List Loaded}
    (h : loadAll i us = some ls) : ls.map (·.src) = List.range' i us.length := by
  induction us generalizing i ls with
  | nil => simp [loadAll] at h; simp [← h]
  | cons u us ih =>
    simp only [loadAll] at h
    cases hd : u.decoded with
    | none => rw [hd] at h; simp at h
    | some wh =>
      cases hrest : loadAll (i + 1) us with
      | none => rw [hd, hrest] at h; simp at h
      | some ls' =>
        rw [hd, hrest] at h
        cases wh with
        | mk w hgt =>
          simp at h
          simp [← h, List.range'_succ, ih hrest]

theorem loadAll_none_of_mem {us : List UploadedImage} {u : UploadedImage}
    (hmem : u ∈ us) (hfail : u.decoded = none) (i : Nat) : loadAll i us = none := by
  induction us generalizing i with
  | nil => simp at hmem
  | cons v vs ih =>
    rcases List.mem_cons.1 hmem with h | h
    · subst h; simp [loadAll, hfail]
    · simp only [loadAll, ih h]
      cases v.decoded with
      | none => rfl
      | some wh => cases wh; rfl

theorem loadAll_pixels {us : List UploadedImage} {i : Nat} {ls : List Loaded}
    (h : loadAll i us = some ls) : ls.map (·.pixels) = us.map (·.pixels) := by
  induction us generalizing i ls with
  | nil => simp [loadAll] at h; simp [← h]
  | cons u us ih =>
    simp only [loadAll] at h
    cases hd : u.decoded with
    | none => rw [hd] at h; simp at h
    | some wh =>
      cases hrest : loadAll (i + 1) us with
      | none => rw [hd, hrest] at h; simp at h
      | some ls' =>
        rw [hd, hrest] at h
        cases wh with
        | mk w hgt =>
          simp at h
          simp [← h, ih hrest]

/-- The decode result of each uploaded image fully determines the loaded
list: `loadAll` succeeds iff every decode succeeded, and the entries only
depend on `decoded`/`pixels`. -/
theorem loadAll_congr {us us' : List UploadedImage} (i : Nat)
    (hlen : us.length = us'.length)
    (hsame : ∀ j (hj : j < us.length) (hj' : j < us'.length),
      (us.get ⟨j, hj⟩).decoded = (us'.get ⟨j, hj'⟩).decoded ∧
      (us.get ⟨j, hj⟩).pixels = (us'.get ⟨j, hj'⟩).pixels) :
    loadAll i us = loadAll i us' := by
  induction us generalizing i us' with
  | nil => cases us' with
    | nil => rfl
    | cons _ _ => simp at hlen
  | cons u vs ih =>
    cases us' with
    | nil => simp at hlen
    | cons u' vs' =>
      have h0 := hsame 0 (by simp) (by simp)
      simp only [List.get] at h0
      have hrest : loadAll (i + 1) vs = loadAll (i + 1) vs' := by
        apply ih
        · simpa using hlen
        · intro j hj hj'
          have := hsame (j + 1) (by simpa using Nat.succ_lt_succ hj)
            (by simpa using Nat.succ_lt_succ hj')
          simpa [List.get] using this
      simp only [loadAll, h0.1, h0.2, hrest]

/-- Closed form of the draw plan: the `i`-th draw targets the `i`-th loaded
image, at `x = 0`, `y = base + Σ_{j<i} scaledHeight j`, with width
`targetWidth` and height `scaledHeight i`. -/
theorem computeDraws_get (tw : Nat) (l : List Loaded) (y : ℚ) (i : Nat)
    (hi : i < (computeDraws tw y l).length) (hl : i < l.length) :
    (computeDraws tw y l).get ⟨i, hi⟩ =
      ⟨(l.get ⟨i, hl⟩).pixels, 0,
        y + ((l.take i).map (scaledHeight tw)).sum,
        (tw : ℚ), scaledHeight tw (l.get ⟨i, hl⟩)⟩ := by
  induction l generalizing y i with
  | nil => simp at hl
  | cons img rest ih =>
    cases i with
    | zero => simp [computeDraws]
    | succ j =>
      have hj : j < rest.length := by simpa using hl
      have hj2 : j < (computeDraws tw (y + scaledHeight tw img) rest).length := by
        simpa [computeDraws] using hi
      simp only [computeDraws, List.get, List.take, List.map_cons, List.sum_cons]
      rw [ih (y + scaledHeight tw img) j hj2 hj]
      simp [add_assoc]

theorem computeDraws_length (tw : Nat) (l : List Loaded) (y : ℚ) :
    (computeDraws tw y l).length = l.length := by
  induction l generalizing y with
  | nil => rfl
  | cons img rest ih => simp [computeDraws, ih]

theorem computeDraws_map_pixels (tw : Nat) (l : List Loaded) (y : ℚ) :
    (computeDraws tw y l).map (·.pixels) = l.map (·.pixels) := by
  induction l generalizing y with
  | nil => rfl
  | cons img rest ih => simp [computeDraws, ih]

/-- Any failure inside the EXIF step (file read error, missing codec,
`load`/`dump`/`insert` throwing) leaves the stitched bytes unchanged. -/
def exifStepFails (pe : Option Piexif) (firstRead : Option Bytes) (stitched : Bytes) : Prop :=
  firstRead = none ∨ pe = none ∨
    (∃ p b, pe = some p ∧ firstRead = some b ∧
      ((∃ e, p.load b = .error e) ∨
       (∃ d, p.load b = .ok (.obj d) ∧
         ((∃ e, p.dump d = .error e) ∨
          (∃ eb, p.dump d = .ok eb ∧ ∃ e, p.insert eb stitched = .error e)))))

theorem exifStep_unchanged_of_fails {pe : Option Piexif} {firstRead : Option Bytes}
    {stitched : Bytes} (h : exifStepFails pe firstRead stitched) :
    (exifStep pe firstRead stitched).1 = stitched := by
  rcases h with h | h | ⟨p, b, hp, hb, hcase⟩
  · simp [exifStep, h]
  · subst h
    cases firstRead <;> simp [exifStep]
  · subst hp; subst hb
    rcases hcase with ⟨e, he⟩ | ⟨d, hd, hcase⟩
    · simp [exifStep, he]
    · rcases hcase with ⟨e, he⟩ | ⟨eb, heb, e, he⟩
      · simp [exifStep, hd, he]
      · simp [exifStep, hd, heb, he]

/-- The successful run, in closed form: when the input is non-empty, every
image decodes and the 2D context is available, `stitchImages` performs the
whole pipeline and releases every per-image handle. -/
theorem stitchImages_ok {env : Env} {u0 : UploadedImage} {us : List UploadedImage}
    {w0 h0 : Nat} {ls : List Loaded}
    (hd0 : u0.decoded = some (w0, h0)) (hls : loadAll 1 us = some ls)
    (hctx : env.ctxOk = true) :
    stitchImages env (u0 :: us) =
      { result := .ok
          { bytes := (exifStep env.piexif u0.readResult
              (stitchedBytes env ⟨w0, h0, u0.pixels, 0⟩ ls)).1
            width := w0
            height := jsRound (totalHeight w0 (⟨w0, h0, u0.pixels, 0⟩ :: ls)) }
        events :=
          [.canvasCreated w0 (idlUint32 (totalHeight w0 (⟨w0, h0, u0.pixels, 0⟩ :: ls))),
           .filled w0 (idlUint32 (totalHeight w0 (⟨w0, h0, u0.pixels, 0⟩ :: ls)))] ++
          (computeDraws w0 0 (⟨w0, h0, u0.pixels, 0⟩ :: ls)).map .drewEv ++
          [.encodedEv] ++
          (exifStep env.piexif u0.readResult
            (stitchedBytes env ⟨w0, h0, u0.pixels, 0⟩ ls)).2
        allocated := List.range (us.length + 1)
        released := (⟨w0, h0, u0.pixels, 0⟩ :: ls).map (·.src) } := by
  simp [stitchImages, hd0, hls, hctx, stitchedBytes]

/-- The run that aborts because some image fails to decode. -/
theorem stitchImages_decodeError {env : Env} {u0 : UploadedImage} {us : List UploadedImage}
    (h : u0.decoded = none ∨ loadAll 1 us = none) :
    stitchImages env (u0 :: us) =
      { result := .error .decodeError, events := [],
        allocated := List.range (us.length + 1), released := [] } := by
  rcases h with h | h
  · simp [stitchImages, h]
  · simp only [stitchImages, h]
    cases hd : u0.decoded with
    | none => rfl
    | some wh => cases wh; rfl

/-- The run that aborts because `canvas.getContext('2d')` returned null. -/
theorem stitchImages_surfaceError {env : Env} {u0 : UploadedImage} {us : List UploadedImage}
    {w0 h0 : Nat} {ls : List Loaded}
    (hd0 : u0.decoded = some (w0, h0)) (hls : loadAll 1 us = some ls)
    (hctx : env.ctxOk = false) :
    stitchImages env (u0 :: us) =
      { result := .error .surfaceError
        events := [.canvasCreated w0 (idlUint32 (totalHeight w0 (⟨w0, h0, u0.pixels, 0⟩ :: ls)))]
        allocated := List.range (us.length + 1)
        released := [] } := by
  simp [stitchImages, hd0, hls, hctx]

theorem scaledHeight_nonneg (tw : Nat) (img : Loaded) : 0 ≤ scaledHeight tw img := by
  unfold scaledHeight scaleFactor
  positivity

theorem totalHeight_nonneg (tw : Nat) (loaded : List Loaded) : 0 ≤ totalHeight tw loaded := by
  unfold totalHeight
  apply List.sum_nonneg
  intro x hx
  rcases List.mem_map.1 hx with ⟨img, _, rfl⟩
  exact scaledHeight_nonneg tw img

theorem scaledHeight_pos {tw : Nat} {img : Loaded} (htw : 0 < tw)
    (hw : 0 < img.naturalWidth) (hh : 0 < img.naturalHeight) :
    0 < scaledHeight tw img := by
  unfold scaledHeight scaleFactor
  have h1 : (0 : ℚ) < img.naturalHeight := by exact_mod_cast hh
  have h2 : (0 : ℚ) < tw := by exact_mod_cast htw
  have h3 : (0 : ℚ) < img.naturalWidth := by exact_mod_cast hw
  positivity

/-- Rounding versus truncation: `Math.round x` agrees with the truncated
value `⌊x⌋` exactly when the fractional part of `x` is below one half. -/
theorem jsRound_eq_floor_iff (x : ℚ) : jsRound x = Int.floor x ↔ Int.fract x < 1 / 2 := by
  unfold jsRound
  rw [round_eq]
  have hf : Int.fract x = x - Int.floor x := (Int.self_sub_floor x).symm
  constructor
  · intro h
    by_contra hge
    push_neg at hge
    have hx2 : (Int.floor x : ℚ) + 1 ≤ x + 1 / 2 := by
      rw [hf] at hge
      linarith
    have h1 : Int.floor x + 1 ≤ Int.floor (x + 1 / 2) := by
      apply Int.le_floor.2
      exact_mod_cast hx2
    omega
  · intro h
    have h0 : (Int.floor x : ℚ) ≤ x + 1 / 2 := by
      have := Int.floor_le x
      linarith
    have h1 : x + 1 / 2 < (Int.floor x : ℚ) + 1 := by
      rw [hf] at h
      linarith
    exact Int.floor_eq_iff.2 ⟨by exact_mod_cast h0, by exact_mod_cast h1⟩

/-- On the successful path the released handles are exactly the allocated
ones. -/
theorem released_eq_allocated {u0 : UploadedImage} {us : List UploadedImage}
    {w0 h0 : Nat} {ls : List Loaded} (hls : loadAll 1 us = some ls) :
    ((⟨w0, h0, u0.pixels, 0⟩ : Loaded) :: ls).map (·.src) = List.range (us.length + 1) := by
  have hsrc := loadAll_map_src hls
  simp only [List.map_cons, hsrc]
  rw [List.range_eq_range']
  rw [List.range'_succ]

/-! ### Claims -/

/-- C9: calling `stitchImages` with an empty list throws `EmptyInputError`
and produces nothing: no canvas event, no handle allocated, no result. -/
theorem c9_empty_input (env : Env) :
    (stitchImages env []).result = .error .emptyInput ∧
    (stitchImages env []).events = [] ∧
    (stitchImages env []).allocated = [] ∧
    (stitchImages env []).released = [] :=
  ⟨rfl, rfl, rfl, rfl⟩

/-- C1: the layout step sets `targetWidth` to the first image's natural
width, computes `scaleFactor = targetWidth / naturalWidth` and
`scaledHeight = naturalHeight * scaleFactor` per image, and the canvas
height comes from the unrounded sum of scaled heights (only the final
value is rounded); for two images 100×50 and 200×50 the second scale
factor is 1/2, its scaled height 25, and the canvas is 100 × 75. -/
theorem c1_layout (env : Env) (hctx : env.ctxOk = true)
    (u0 u1 : UploadedImage)
    (h0 : u0.decoded = some (100, 50)) (h1 : u1.decoded = some (200, 50)) :
    (∀ (env' : Env) (u0' : UploadedImage) (us' : List UploadedImage)
       (w hgt : Nat) (ls' : List Loaded),
       u0'.decoded = some (w, hgt) → loadAll 1 us' = some ls' → env'.ctxOk = true →
       ∃ r, (stitchImages env' (u0' :: us')).result = .ok r ∧ r.width = w ∧
         r.height = jsRound (totalHeight w (⟨w, hgt, u0'.pixels, 0⟩ :: ls')) ∧
         totalHeight w (⟨w, hgt, u0'.pixels, 0⟩ :: ls') =
           ((⟨w, hgt, u0'.pixels, 0⟩ :: ls').map (scaledHeight w)).sum) ∧
    scaleFactor 100 200 = 1 / 2 ∧
    (∀ p s, scaledHeight 100 ⟨200, 50, p, s⟩ = 25) ∧
    (∀ p s, scaledHeight 100 ⟨200, 50, p, s⟩ =
      (50 : ℚ) * scaleFactor 100 200) ∧
    ∃ r, (stitchImages env [u0, u1]).result = .ok r ∧ r.width = 100 ∧ r.height = 75 ∧
      Event.canvasCreated 100 75 ∈ (stitchImages env [u0, u1]).events := by
  have hls : loadAll 1 [u1] = some [⟨200, 50, u1.pixels, 1⟩] := by
    simp [loadAll, h1]
  have hth : totalHeight 100 [⟨100, 50, u0.pixels, 0⟩, ⟨200, 50, u1.pixels, 1⟩] = 75 := by
    norm_num [totalHeight, scaledHeight, scaleFactor]
  refine ⟨?_, by norm_num [scaleFactor], ?_, ?_, ?_⟩
  · intro env' u0' us' w hgt ls' hd0' hls' hctx'
    rw [stitchImages_ok hd0' hls' hctx']
    exact ⟨_, rfl, rfl, rfl, rfl⟩
  · intro p s
    norm_num [scaledHeight, scaleFactor]
  · intro p s
    norm_num [scaledHeight, scaleFactor]
  · rw [stitchImages_ok h0 hls hctx]
    refine ⟨_, rfl, rfl, ?_, ?_⟩
    · rw [hth]
      norm_num [jsRound, round_eq]
    · rw [hth]
      norm_num [idlUint32]
      left
      decide

/-- Witness for C1 at the concrete example inputs. -/
theorem c1_layout_witness :
    ∃ r, (stitchImages envPlain [up100, up200]).result = .ok r ∧ r.width = 100 ∧
      r.height = 75 ∧
      Event.canvasCreated 100 75 ∈ (stitchImages envPlain [up100, up200]).events :=
  (c1_layout envPlain rfl up100 up200 rfl rfl).2.2.2.2

/-- C6: a single decode failure anywhere in the input aborts the whole
stitch with `DecodeError`, before any canvas event: no result of any kind
is produced. -/
theorem c6_decode_abort (env : Env) (u0 : UploadedImage) (us : List UploadedImage)
    (u : UploadedImage) (hmem : u ∈ u0 :: us) (hfail : u.decoded = none) :
    (stitchImages env (u0 :: us)).result = .error .decodeError ∧
    (stitchImages env (u0 :: us)).events = [] := by
  have h : u0.decoded = none ∨ loadAll 1 us = none := by
    rcases List.mem_cons.1 hmem with h | h
    · left; rw [← h]; exact hfail
    · right; exact loadAll_none_of_mem h hfail 1
  rw [stitchImages_decodeError h]
  exact ⟨rfl, rfl⟩

/-- Witness for C6: a good image followed by a corrupt one. -/
theorem c6_decode_abort_witness :
    (stitchImages envPlain [upGood, upBad]).result = .error .decodeError ∧
    (stitchImages envPlain [upGood, upBad]).events = [] :=
  c6_decode_abort envPlain upGood [upBad] upBad (by simp) rfl

/-- C2: with a non-empty, decodable input and a working context, the stitch
returns a result whatever the metadata codec does; and if anything in the
metadata step failed (unreadable file, missing codec, `load`/`dump`/`insert`
throwing), the returned bytes are exactly the encoded composite. -/
theorem c2_metadata_never_fatal (env : Env) (u0 : UploadedImage) (us : List UploadedImage)
    (w0 h0 : Nat) (ls : List Loaded)
    (hd0 : u0.decoded = some (w0, h0)) (hls : loadAll 1 us = some ls)
    (hctx : env.ctxOk = true) :
    (∃ r, (stitchImages env (u0 :: us)).result = .ok r) ∧
    (exifStepFails env.piexif u0.readResult (stitchedBytes env ⟨w0, h0, u0.pixels, 0⟩ ls) →
      ∃ r, (stitchImages env (u0 :: us)).result = .ok r ∧
        r.bytes = stitchedBytes env ⟨w0, h0, u0.pixels, 0⟩ ls) := by
  rw [stitchImages_ok hd0 hls hctx]
  exact ⟨⟨_, rfl⟩, fun hf => ⟨_, rfl, exifStep_unchanged_of_fails hf⟩⟩

/-- Witness for C2: the codec's `load` throws, and the pipeline still
returns the unmodified encoded bytes. -/
theorem c2_metadata_never_fatal_witness :
    ∃ r, (stitchImages envThrows [upGood]).result = .ok r ∧
      r.bytes = stitchedBytes envThrows ⟨10, 20, 5, 0⟩ [] :=
  (c2_metadata_never_fatal envThrows upGood [] 10 20 [] rfl rfl rfl).2
    (.inr (.inr ⟨pThrows, [99], rfl, rfl, .inl ⟨"bad segment", rfl⟩⟩))

/-- C10: with `window.piexif` absent, every otherwise-valid input still
stitches successfully; the bytes are the raw encoded composite (no insert
was performed) and only a warning is emitted. -/
theorem c10_no_piexif (env : Env) (u0 : UploadedImage) (us : List UploadedImage)
    (w0 h0 : Nat) (ls : List Loaded) (b : Bytes)
    (hd0 : u0.decoded = some (w0, h0)) (hls : loadAll 1 us = some ls)
    (hctx : env.ctxOk = true) (hread : u0.readResult = some b)
    (hpe : env.piexif = none) :
    ∃ r, (stitchImages env (u0 :: us)).result = .ok r ∧
      r.bytes = stitchedBytes env ⟨w0, h0, u0.pixels, 0⟩ ls ∧
      r.width = w0 ∧
      r.height = jsRound (totalHeight w0 (⟨w0, h0, u0.pixels, 0⟩ :: ls)) ∧
      Event.warnNoPiexif ∈ (stitchImages env (u0 :: us)).events := by
  rw [stitchImages_ok hd0 hls hctx]
  refine ⟨_, rfl, ?_, rfl, rfl, ?_⟩
  · simp [exifStep, hread, hpe]
  · simp [exifStep, hread, hpe]

/-- Witness for C10 on a single good image. -/
theorem c10_no_piexif_witness :
    ∃ r, (stitchImages envPlain [upGood]).result = .ok r ∧
      r.bytes = stitchedBytes envPlain ⟨10, 20, 5, 0⟩ [] ∧
      r.width = 10 ∧
      r.height = jsRound (totalHeight 10 [⟨10, 20, 5, 0⟩]) ∧
      Event.warnNoPiexif ∈ (stitchImages envPlain [upGood]).events :=
  c10_no_piexif envPlain upGood [] 10 20 [] [99] rfl rfl rfl rfl rfl

/-- C3 fails on the code: when the parser returns an empty-but-present
dictionary (an object with no tags), the `typeof exifObj === 'object'` test
passes, so `dump` and `insert` still run and the output bytes are NOT the
unchanged encoded bytes: a (tagless) segment is injected. -/
theorem c3_counterexample :
    pEmptyDict.load [99] = .ok (.obj ⟨[]⟩) ∧
    stitchedBytes envEmptyDict ⟨10, 20, 5, 0⟩ [] = [1, 2, 3] ∧
    (stitchImages envEmptyDict [upGood]).result =
      .ok { bytes := [9, 9, 1, 2, 3], width := 10, height := 20 } ∧
    ([9, 9, 1, 2, 3] : Bytes) ≠ [1, 2, 3] := by
  refine ⟨rfl, rfl, ?_, by decide⟩
  rw [@stitchImages_ok envEmptyDict upGood [] 10 20 [] rfl rfl rfl]
  norm_num [exifStep, envEmptyDict, pEmptyDict, upGood, stitchedBytes, encABC,
    totalHeight, scaledHeight, scaleFactor, jsRound, round_eq]

/-- C3 amended: whenever the parser returns a dictionary object — empty or
not — and `dump`/`insert` succeed, the injected stream is returned; the
encoded bytes come back unchanged only when the parser's result is not an
object (e.g. the string sentinel). -/
theorem c3_amended_empty_dict (env : Env) (u0 : UploadedImage) (us : List UploadedImage)
    (w0 h0 : Nat) (ls : List Loaded) (p : Piexif) (b : Bytes)
    (hd0 : u0.decoded = some (w0, h0)) (hls : loadAll 1 us = some ls)
    (hctx : env.ctxOk = true) (hpe : env.piexif = some p)
    (hread : u0.readResult = some b) :
    (∀ d eb out, p.load b = .ok (.obj d) → p.dump d = .ok eb →
       p.insert eb (stitchedBytes env ⟨w0, h0, u0.pixels, 0⟩ ls) = .ok out →
       ∃ r, (stitchImages env (u0 :: us)).result = .ok r ∧ r.bytes = out) ∧
    (∀ s, p.load b = .ok (.nonObj s) →
       ∃ r, (stitchImages env (u0 :: us)).result = .ok r ∧
         r.bytes = stitchedBytes env ⟨w0, h0, u0.pixels, 0⟩ ls) := by
  rw [stitchImages_ok hd0 hls hctx]
  constructor
  · intro d eb out hload hdump hins
    exact ⟨_, rfl, by simp [exifStep, hread, hpe, hload, hdump, hins]⟩
  · intro s hload
    exact ⟨_, rfl, by simp [exifStep, hread, hpe, hload]⟩

/-- Witness for the amended C3: the empty dictionary is serialized and
injected. -/
theorem c3_amended_empty_dict_witness :
    ∃ r, (stitchImages envEmptyDict [upGood]).result = .ok r ∧
      r.bytes = [9, 9, 1, 2, 3] :=
  (c3_amended_empty_dict envEmptyDict upGood [] 10 20 [] pEmptyDict [99]
      rfl rfl rfl rfl rfl).1 ⟨[]⟩ [9, 9] [9, 9, 1, 2, 3] rfl rfl rfl

/-- C4 fails on the code: for images 100×50 and 200×51 the unrounded total
height is 75.5; `canvas.height = totalHeight` truncates to 75, while the
returned record's height is `Math.round(75.5) = 76` — the surface height
and the reported height are different integers. -/
theorem c4_counterexample :
    (stitchImages envPlain [up100, up200f]).events.head? =
      some (.canvasCreated 100 75) ∧
    (stitchImages envPlain [up100, up200f]).result =
      .ok { bytes := [], width := 100, height := 76 } ∧
    (75 : Nat) ≠ 76 := by
  have hls : loadAll 1 [up200f] = some [⟨200, 51, 1, 1⟩] := rfl
  have hth : totalHeight 100 [⟨100, 50, 0, 0⟩, ⟨200, 51, 1, 1⟩] = 151 / 2 := by
    norm_num [totalHeight, scaledHeight, scaleFactor]
  refine ⟨?_, ?_, by decide⟩
  · rw [stitchImages_ok rfl hls rfl]
    norm_num [up100, hth, idlUint32]
    decide
  · rw [stitchImages_ok rfl hls rfl]
    norm_num [up100, hth, jsRound, round_eq, exifStep, envPlain, encNil, stitchedBytes]

/-- C4 amended: the allocated surface height is the truncation
`⌊totalHeight⌋` (the Web IDL unsigned-long conversion), the reported height
is `Math.round(totalHeight)`, and the two agree exactly when the fractional
part of the total is below one half. -/
theorem c4_amended_truncation (env : Env) (u0 : UploadedImage) (us : List UploadedImage)
    (w0 h0 : Nat) (ls : List Loaded)
    (hd0 : u0.decoded = some (w0, h0)) (hls : loadAll 1 us = some ls)
    (hctx : env.ctxOk = true)
    (hlt : totalHeight w0 (⟨w0, h0, u0.pixels, 0⟩ :: ls) < 2 ^ 32) :
    ∃ r, (stitchImages env (u0 :: us)).result = .ok r ∧
      r.height = jsRound (totalHeight w0 (⟨w0, h0, u0.pixels, 0⟩ :: ls)) ∧
      Event.canvasCreated w0
          (Int.toNat (Int.floor (totalHeight w0 (⟨w0, h0, u0.pixels, 0⟩ :: ls)))) ∈
        (stitchImages env (u0 :: us)).events ∧
      ((Int.toNat (Int.floor (totalHeight w0 (⟨w0, h0, u0.pixels, 0⟩ :: ls))) : Int) =
          jsRound (totalHeight w0 (⟨w0, h0, u0.pixels, 0⟩ :: ls)) ↔
        Int.fract (totalHeight w0 (⟨w0, h0, u0.pixels, 0⟩ :: ls)) < 1 / 2) := by
  have hnn : 0 ≤ totalHeight w0 (⟨w0, h0, u0.pixels, 0⟩ :: ls) :=
    totalHeight_nonneg w0 _
  have hfl : (0 : Int) ≤ Int.floor (totalHeight w0 (⟨w0, h0, u0.pixels, 0⟩ :: ls)) :=
    Int.floor_nonneg.2 hnn
  have hflt : Int.floor (totalHeight w0 (⟨w0, h0, u0.pixels, 0⟩ :: ls)) < 2 ^ 32 := by
    apply Int.floor_lt.2
    exact_mod_cast hlt
  have hidl : idlUint32 (totalHeight w0 (⟨w0, h0, u0.pixels, 0⟩ :: ls)) =
      Int.toNat (Int.floor (totalHeight w0 (⟨w0, h0, u0.pixels, 0⟩ :: ls))) := by
    unfold idlUint32
    apply Nat.mod_eq_of_lt
    omega
  rw [stitchImages_ok hd0 hls hctx]
  refine ⟨_, rfl, rfl, ?_, ?_⟩
  · rw [← hidl]
    simp
  · rw [Int.toNat_of_nonneg hfl]
    rw [show (Int.floor (totalHeight w0 (⟨w0, h0, u0.pixels, 0⟩ :: ls)) =
        jsRound (totalHeight w0 (⟨w0, h0, u0.pixels, 0⟩ :: ls))) =
      (jsRound (totalHeight w0 (⟨w0, h0, u0.pixels, 0⟩ :: ls)) =
        Int.floor (totalHeight w0 (⟨w0, h0, u0.pixels, 0⟩ :: ls))) from propext eq_comm]
    exact jsRound_eq_floor_iff _

/-- Witness for the amended C4 on the fractional example (total 75.5). -/
theorem c4_amended_truncation_witness :
    ∃ r, (stitchImages envPlain [up100, up200f]).result = .ok r ∧
      r.height = jsRound (totalHeight 100 [⟨100, 50, 0, 0⟩, ⟨200, 51, 1, 1⟩]) ∧
      Event.canvasCreated 100
          (Int.toNat (Int.floor (totalHeight 100 [⟨100, 50, 0, 0⟩, ⟨200, 51, 1, 1⟩]))) ∈
        (stitchImages envPlain [up100, up200f]).events ∧
      ((Int.toNat (Int.floor (totalHeight 100 [⟨100, 50, 0, 0⟩, ⟨200, 51, 1, 1⟩])) : Int) =
          jsRound (totalHeight 100 [⟨100, 50, 0, 0⟩, ⟨200, 51, 1, 1⟩]) ↔
        Int.fract (totalHeight 100 [⟨100, 50, 0, 0⟩, ⟨200, 51, 1, 1⟩]) < 1 / 2) :=
  c4_amended_truncation envPlain up100 [up200f] 100 50 [⟨200, 51, 1, 1⟩] rfl rfl rfl
    (by norm_num [totalHeight, scaledHeight, scaleFactor])

/-- C5 fails on the code: the `URL.revokeObjectURL` cleanup only runs on
the successful path.  On a decode failure every object URL created by the
already-started loads stays allocated, and on a context-allocation failure
the same happens: handles were allocated but none released. -/
theorem c5_counterexample :
    (stitchImages envPlain [upGood, upBad]).allocated = [0, 1] ∧
    (stitchImages envPlain [upGood, upBad]).released = [] ∧
    (stitchImages envNoCtx [upGood]).allocated = [0] ∧
    (stitchImages envNoCtx [upGood]).released = [] := by
  have h1 : loadAll 1 [upBad] = none := rfl
  rw [stitchImages_decodeError (Or.inr h1)]
  rw [@stitchImages_surfaceError envNoCtx upGood [] 10 20 [] rfl rfl rfl]
  refine ⟨by decide, rfl, rfl, rfl⟩

/-- C5 amended: on the successful path (all decodes succeed, context
available) every per-image handle is released, whatever the metadata step
did; on an early abort — decode failure or context failure — handles were
allocated but none are released. -/
theorem c5_amended_release (env : Env) (u0 : UploadedImage) (us : List UploadedImage) :
    (∀ w0 h0 ls, u0.decoded = some (w0, h0) → loadAll 1 us = some ls →
      env.ctxOk = true →
      (stitchImages env (u0 :: us)).released = (stitchImages env (u0 :: us)).allocated) ∧
    ((u0.decoded = none ∨ loadAll 1 us = none) →
      (stitchImages env (u0 :: us)).allocated = List.range (us.length + 1) ∧
      (stitchImages env (u0 :: us)).released = []) ∧
    (∀ w0 h0 ls, u0.decoded = some (w0, h0) → loadAll 1 us = some ls →
      env.ctxOk = false →
      (stitchImages env (u0 :: us)).allocated = List.range (us.length + 1) ∧
      (stitchImages env (u0 :: us)).released = []) := by
  refine ⟨?_, ?_, ?_⟩
  · intro w0 h0 ls hd0 hls hctx
    rw [stitchImages_ok hd0 hls hctx]
    exact released_eq_allocated hls
  · intro h
    rw [stitchImages_decodeError h]
    exact ⟨rfl, rfl⟩
  · intro w0 h0 ls hd0 hls hctx
    rw [stitchImages_surfaceError hd0 hls hctx]
    exact ⟨rfl, rfl⟩

/-- C7: only the first image's metadata is read.  With a codec whose
`insert` prepends the dumped segment and whose `load` recovers a dictionary
from any stream carrying that segment, a tag of the first source file
round-trips into the output; and the whole run is unchanged when every
image other than the first swaps its file bytes (same decode and raster),
so tags carried only by later images can never reach the output. -/
theorem c7_first_image_only (env : Env) (u0 : UploadedImage) (us : List UploadedImage)
    (w0 h0 : Nat) (ls : List Loaded) (p : Piexif) (b : Bytes) (d : ExifDict)
    (t : Nat × Nat) (eb : Bytes)
    (hd0 : u0.decoded = some (w0, h0)) (hls : loadAll 1 us = some ls)
    (hctx : env.ctxOk = true) (hpe : env.piexif = some p)
    (hread : u0.readResult = some b)
    (hload : p.load b = .ok (.obj d)) (ht : t ∈ d.tags)
    (hdump : p.dump d = .ok eb)
    (hins : ∀ s, p.insert eb s = .ok (eb ++ s))
    (hparse : ∀ s, p.load (eb ++ s) = .ok (.obj d)) :
    (∃ r, (stitchImages env (u0 :: us)).result = .ok r ∧
      r.bytes = eb ++ stitchedBytes env ⟨w0, h0, u0.pixels, 0⟩ ls ∧
      p.load r.bytes = .ok (.obj d) ∧ t ∈ d.tags) ∧
    (∀ us' : List UploadedImage, us.length = us'.length →
      (∀ j (hj : j < us.length) (hj' : j < us'.length),
        (us.get ⟨j, hj⟩).decoded = (us'.get ⟨j, hj'⟩).decoded ∧
        (us.get ⟨j, hj⟩).pixels = (us'.get ⟨j, hj'⟩).pixels) →
      stitchImages env (u0 :: us') = stitchImages env (u0 :: us)) := by
  constructor
  · rw [stitchImages_ok hd0 hls hctx]
    refine ⟨_, rfl, ?_, ?_, ht⟩
    · simp [exifStep, hread, hpe, hload, hdump, hins]
    · simp only [exifStep, hread, hpe, hload, hdump, hins]
      exact hparse _
  · intro us' hlen hsame
    have hls' : loadAll 1 us' = some ls := by
      rw [← loadAll_congr 1 hlen hsame]
      exact hls
    rw [stitchImages_ok hd0 hls' hctx, stitchImages_ok hd0 hls hctx, hlen]

/-- Witness for C7 with the concrete `pCanon` codec: the camera-make tag of
the first file appears unchanged when the output is parsed. -/
theorem c7_first_image_only_witness :
    ∃ r, (stitchImages envCanon [upGood]).result = .ok r ∧
      r.bytes = [271, 67] ++ stitchedBytes envCanon ⟨10, 20, 5, 0⟩ [] ∧
      pCanon.load r.bytes = .ok (.obj dCanon) ∧ (271, 67) ∈ dCanon.tags :=
  (c7_first_image_only envCanon upGood [] 10 20 [] pCanon [99] dCanon (271, 67) [271, 67]
      rfl rfl rfl rfl rfl rfl (by decide) rfl (fun _ => rfl) (fun _ => rfl)).1

/-- C8: images are drawn in input order; the `i`-th draw targets the `i`-th
image at `x = 0`, `y` equal to the sum of the scaled heights of all prior
images, width `targetWidth` and height `scaledHeight i`; with positive
dimensions the offsets strictly increase and the first image sits at the
top (`y = 0`). -/
theorem c8_draw_order (env : Env) (u0 : UploadedImage) (us : List UploadedImage)
    (w0 h0 : Nat) (ls : List Loaded) (loaded : List Loaded)
    (hd0 : u0.decoded = some (w0, h0)) (hls : loadAll 1 us = some ls)
    (hctx : env.ctxOk = true)
    (hloaded : loaded = (⟨w0, h0, u0.pixels, 0⟩ : Loaded) :: ls)
    (hpos : ∀ img ∈ loaded, 0 < img.naturalWidth ∧ 0 < img.naturalHeight) :
    ((stitchImages env (u0 :: us)).events =
      [.canvasCreated w0 (idlUint32 (totalHeight w0 loaded)),
       .filled w0 (idlUint32 (totalHeight w0 loaded))] ++
      (computeDraws w0 0 loaded).map .drewEv ++ [.encodedEv] ++
      (exifStep env.piexif u0.readResult
        (stitchedBytes env ⟨w0, h0, u0.pixels, 0⟩ ls)).2) ∧
    (computeDraws w0 0 loaded).map (·.pixels) = (u0 :: us).map (·.pixels) ∧
    (∀ i (hi : i < (computeDraws w0 0 loaded).length) (hl : i < loaded.length),
      (computeDraws w0 0 loaded).get ⟨i, hi⟩ =
        ⟨(loaded.get ⟨i, hl⟩).pixels, 0, ((loaded.take i).map (scaledHeight w0)).sum,
          (w0 : ℚ), scaledHeight w0 (loaded.get ⟨i, hl⟩)⟩) ∧
    (∀ i j (hi : i < (computeDraws w0 0 loaded).length)
       (hj : j < (computeDraws w0 0 loaded).length), i < j →
      ((computeDraws w0 0 loaded).get ⟨i, hi⟩).y <
        ((computeDraws w0 0 loaded).get ⟨j, hj⟩).y) := by
  have hw0 : 0 < w0 := by
    have := hpos ⟨w0, h0, u0.pixels, 0⟩ (by rw [hloaded]; exact List.mem_cons_self _ _)
    exact this.1
  refine ⟨?_, ?_, ?_, ?_⟩
  · rw [stitchImages_ok hd0 hls hctx, hloaded]
  · rw [computeDraws_map_pixels, hloaded]
    simp [loadAll_pixels hls]
  · intro i hi hl
    have := computeDraws_get w0 loaded 0 i hi hl
    rw [this]
    simp
  · intro i j hi hj hij
    have hli : i < loaded.length := by rw [← computeDraws_length w0 loaded 0]; exact hi
    have hlj : j < loaded.length := by rw [← computeDraws_length w0 loaded 0]; exact hj
    rw [computeDraws_get w0 loaded 0 i hi hli, computeDraws_get w0 loaded 0 j hj hlj]
    simp only [zero_add]
    have hsplit : loaded.take j = loaded.take i ++ (loaded.drop i).take (j - i) := by
      rw [← List.take_add]
      congr 1
      omega
    rw [hsplit, List.map_append, List.sum_append]
    have hpos' : 0 < (((loaded.drop i).take (j - i)).map (scaledHeight w0)).sum := by
      apply List.sum_pos
      · intro x hx
        rcases List.mem_map.1 hx with ⟨img, himg, rfl⟩
        have himg2 : img ∈ loaded :=
          List.mem_of_mem_drop (List.mem_of_mem_take himg)
        exact scaledHeight_pos hw0 (hpos img himg2).1 (hpos img himg2).2
      · intro hnil
        have hemp : (loaded.drop i).take (j - i) = [] := List.map_eq_nil_iff.1 hnil
        have hlen : ((loaded.drop i).take (j - i)).length = min (j - i) (loaded.length - i) := by
          simp
        rw [hemp] at hlen
        simp at hlen
        omega
    linarith

/-- Witness for C8 on the two-image example. -/
theorem c8_draw_order_witness :
    ((stitchImages envPlain [up100, up200]).events =
      [.canvasCreated 100 (idlUint32 (totalHeight 100 [⟨100, 50, 0, 0⟩, ⟨200, 50, 1, 1⟩])),
       .filled 100 (idlUint32 (totalHeight 100 [⟨100, 50, 0, 0⟩, ⟨200, 50, 1, 1⟩]))] ++
      (computeDraws 100 0 [⟨100, 50, 0, 0⟩, ⟨200, 50, 1, 1⟩]).map .drewEv ++ [.encodedEv] ++
      (exifStep envPlain.piexif up100.readResult
        (stitchedBytes envPlain ⟨100, 50, 0, 0⟩ [⟨200, 50, 1, 1⟩])).2) ∧
    (computeDraws 100 0 [⟨100, 50, 0, 0⟩, ⟨200, 50, 1, 1⟩]).map (·.pixels) =
      ([up100, up200].map (·.pixels)) ∧
    (∀ i (hi : i < (computeDraws 100 0 [⟨100, 50, 0, 0⟩, ⟨200, 50, 1, 1⟩]).length)
       (hl : i < ([⟨100, 50, 0, 0⟩, ⟨200, 50, 1, 1⟩] : List Loaded).length),
      (computeDraws 100 0 [⟨100, 50, 0, 0⟩, ⟨200, 50, 1, 1⟩]).get ⟨i, hi⟩ =
        ⟨(([⟨100, 50, 0, 0⟩, ⟨200, 50, 1, 1⟩] : List Loaded).get ⟨i, hl⟩).pixels, 0,
          ((([⟨100, 50, 0, 0⟩, ⟨200, 50, 1, 1⟩] : List Loaded).take i).map
            (scaledHeight 100)).sum,
          (100 : ℚ),
          scaledHeight 100 (([⟨100, 50, 0, 0⟩, ⟨200, 50, 1, 1⟩] : List Loaded).get ⟨i, hl⟩)⟩) ∧
    (∀ i j (hi : i < (computeDraws 100 0 [⟨100, 50, 0, 0⟩, ⟨200, 50, 1, 1⟩]).length)
       (hj : j < (computeDraws 100 0 [⟨100, 50, 0, 0⟩, ⟨200, 50, 1, 1⟩]).length), i < j →
      ((computeDraws 100 0 [⟨100, 50, 0, 0⟩, ⟨200, 50, 1, 1⟩]).get ⟨i, hi⟩).y <
        ((computeDraws 100 0 [⟨100, 50, 0, 0⟩, ⟨200, 50, 1, 1⟩]).get ⟨j, hj⟩).y) :=
  c8_draw_order envPlain up100 [up200] 100 50 [⟨200, 50, 1, 1⟩]
    [⟨100, 50, 0, 0⟩, ⟨200, 50, 1, 1⟩] rfl rfl rfl rfl (by decide)

/-- Witness for the amended C5: success path releases all handles; the two
abort shapes release none. -/
theorem c5_amended_release_witness :
    (stitchImages envPlain [upGood]).released = (stitchImages envPlain [upGood]).allocated ∧
    ((stitchImages envPlain [upGood, upBad]).allocated = List.range 2 ∧
      (stitchImages envPlain [upGood, upBad]).released = []) ∧
    ((stitchImages envNoCtx [upGood]).allocated = List.range 1 ∧
      (stitchImages envNoCtx [upGood]).released = []) :=
  ⟨(c5_amended_release envPlain upGood []).1 10 20 [] rfl rfl rfl,
   (c5_amended_release envPlain upGood [upBad]).2.1 (Or.inr rfl),
   (c5_amended_release envNoCtx upGood []).2.2 10 20 [] rfl rfl rfl⟩

end Stitch
